import Mathlib

/-!
Verification development for the Venice image-generation plugin
(src/venice_image_gen_button.py).

The development shallowly embeds the program in Lean:

* the prompt-override parser `parse_prompt_overrides` together with a
  character-level model of Python regex `re.findall` for the concrete
  pattern used by the source, of Python `str.replace` / `str.strip` /
  `str.lower`, and of the builtin `int()` conversion;
* the orchestrator `action`, with the event emitter modelled as a pure
  list of emitted events, the HTTP layer modelled as an environment input
  (`HttpOutcome`), and `random.randint(0, 999999)` modelled as an explicit
  integer argument `randSeed`.

Modelling notes (all simplifications are inessential for the inputs of this
development):
* Python `\w`, `\s`, `str.strip`, `str.lower` and `int()` are Unicode aware;
  the model covers their ASCII behaviour.  `int()` additionally accepts
  underscore digit separators, which the model rejects; no input here
  contains one.
* A Python `dict` is modelled as an association list where insertion
  overwrites the existing binding in place and appends otherwise, which
  matches `dict` lookup and insertion-order semantics.
-/

/-- Python `\w` on ASCII text: letters, digits, underscore. -/
def isWordChar (c : Char) : Bool := c.isAlphanum || c == '_'

/-- Python `\s` on ASCII text: space, tab, newline, carriage return,
form feed, vertical tab. -/
def isSpaceChar (c : Char) : Bool :=
  c == ' ' || c == '\t' || c == '\n' || c == '\r' || c == '\x0b' || c == '\x0c'

/-- ASCII lower-casing of one character, as `str.lower` does on ASCII. -/
def lowerChar (c : Char) : Char :=
  if 'A' ≤ c ∧ c ≤ 'Z' then Char.ofNat (c.toNat + 32) else c

/-- ASCII model of Python `str.lower`. -/
def lowerStr (s : String) : String := String.mk (s.data.map lowerChar)

/-- Python `str.strip()` on ASCII text: drop whitespace from both ends. -/
def stripList (l : List Char) : List Char :=
  ((l.dropWhile isSpaceChar).reverse.dropWhile isSpaceChar).reverse

/-- Value of a decimal digit string, most significant digit first. -/
def digitsToNat (ds : List Char) : Nat :=
  ds.foldl (fun n c => 10 * n + (c.toNat - '0'.toNat)) 0

/-- Model of Python `int(value)` for a string argument: surrounding
whitespace is stripped, an optional sign is allowed, and the remainder must
be a nonempty run of decimal digits; everything else raises `ValueError`,
modelled as `none`. -/
def pyInt (s : String) : Option Int :=
  match stripList s.data with
  | '+' :: ds =>
      if ds ≠ [] ∧ ds.all Char.isDigit then some (digitsToNat ds : Int) else none
  | '-' :: ds =>
      if ds ≠ [] ∧ ds.all Char.isDigit then some (-(digitsToNat ds : Int)) else none
  | ds =>
      if ds ≠ [] ∧ ds.all Char.isDigit then some (digitsToNat ds : Int) else none

/-- Python `str.replace(pat, "")` for a nonempty `pat`: scan left to right,
removing every non-overlapping occurrence.  The fuel argument is the length
of the scanned list; each step either consumes one character or at least
`pat.length ≥ 1` characters, so the fuel never runs out when it starts at
the length of the list. -/
def replaceFuel (pat : List Char) : Nat → List Char → List Char
  | _, [] => []
  | 0, s => s
  | fuel + 1, c :: cs =>
      if !pat.isEmpty && pat.isPrefixOf (c :: cs) then
        replaceFuel pat fuel ((c :: cs).drop pat.length)
      else
        c :: replaceFuel pat fuel cs

/-- Remove every occurrence of `pat` from `s` (Python `s.replace(pat, "")`). -/
def replaceList (s pat : List Char) : List Char := replaceFuel pat s.length s

/-- Python `pat in s` substring test. -/
def containsSub (pat : List Char) : List Char → Bool
  | [] => pat.isEmpty
  | c :: cs => pat.isPrefixOf (c :: cs) || containsSub pat cs

/-- One attempt of the regex `(\w+):\s*([^\n]+)` at the start of `cs`,
with Python backtracking semantics.  `\w+` must reach a colon, so it always
matches the maximal word-character run; `\s*` greedily eats whitespace
(newlines included) and only backtracks when `[^\n]+` would otherwise have
nothing left, in which case the value becomes the last non-newline
whitespace character.  On success, returns the two capture groups and the
characters after the match. -/
def tryMatch (cs : List Char) : Option (String × String × List Char) :=
  match cs.takeWhile isWordChar, cs.dropWhile isWordChar with
  | [], _ => none
  | w, ':' :: cs2 =>
      match cs2.dropWhile isSpaceChar with
      | [] =>
          let ws := cs2.takeWhile isSpaceChar
          match ws.reverse.dropWhile (fun c => c == '\n') with
          | [] => none
          | c :: _ =>
              some (String.mk w, String.mk [c],
                (ws.reverse.takeWhile (fun c => c == '\n')).reverse)
      | cs3 =>
          some (String.mk w,
            String.mk (cs3.takeWhile (fun c => !(c == '\n'))),
            cs3.dropWhile (fun c => !(c == '\n')))
  | _, _ => none

/-- Scanning loop of Python `re.findall`: attempt a match at each position,
resume after the end of each successful match.  The fuel argument is the
length of the scanned list; every step consumes at least one character. -/
def findallFuel : Nat → List Char → List (String × String)
  | _, [] => []
  | 0, _ => []
  | fuel + 1, c :: cs =>
      match tryMatch (c :: cs) with
      | some (k, v, rest) => (k, v) :: findallFuel fuel rest
      | none => findallFuel fuel cs

/-- Model of `re.findall(r"(\w+):\s*([^\n]+)", s)`. -/
def findall (s : List Char) : List (String × String) := findallFuel s.length s

/-- A value stored in the overrides dictionary: Python `int` or `str`. -/
inductive OVal where
  | int (n : Int)
  | str (s : String)
deriving DecidableEq, Repr

/-- The overrides dictionary, keyed by strings. -/
abbrev Dict := List (String × OVal)

/-- Python `d[k] = v`: overwrite the existing binding in place, else append. -/
def dictInsert (d : Dict) (k : String) (v : OVal) : Dict :=
  if d.any (fun p => p.1 == k) then
    d.map (fun p => if p.1 == k then (k, v) else p)
  else d ++ [(k, v)]

/-- Python `d.get(k)`: the binding of `k`, if any. -/
def dictGet (d : Dict) (k : String) : Option OVal :=
  (d.find? (fun p => p.1 == k)).map (fun p => p.2)

/-- The seven recognized override keys (source lines 177-185). -/
def recognized_keys : List String :=
  ["width", "height", "steps", "seed", "cfg_scale", "style_preset", "negative_prompt"]

/-- The numeric subset of the recognized keys (source line 189). -/
def numeric_keys : List String :=
  ["width", "height", "steps", "seed", "cfg_scale"]

/-- The Python f-string `f"{key}: {value}"` used for removal. -/
def tokenOf (key value : String) : List Char :=
  key.data ++ ':' :: ' ' :: value.data

/-- One iteration of the loop body of `parse_prompt_overrides` (source lines
175-194): lower-case the key; if recognized, remove the reconstructed token
from the working prompt and strip; for numeric keys convert the value with
`int()`, skipping the dictionary insertion on failure. -/
def step (st : List Char × Dict) (m : String × String) : List Char × Dict :=
  if recognized_keys.contains (lowerStr m.1) then
    if numeric_keys.contains (lowerStr m.1) then
      match pyInt m.2 with
      | some n =>
          (stripList (replaceList st.1 (tokenOf (lowerStr m.1) m.2)),
           dictInsert st.2 (lowerStr m.1) (OVal.int n))
      | none =>
          (stripList (replaceList st.1 (tokenOf (lowerStr m.1) m.2)), st.2)
    else
      (stripList (replaceList st.1 (tokenOf (lowerStr m.1) m.2)),
       dictInsert st.2 (lowerStr m.1) (OVal.str m.2))
  else st

/-- `Action.parse_prompt_overrides` (source lines 157-196). -/
def parse_prompt_overrides (prompt : String) : String × Dict :=
  let r := (findall prompt.data).foldl step (prompt.data, ([] : Dict))
  (String.mk r.1, r.2)

/-- The configurable options (`Action.Valves`, source lines 27-42), with the
source defaults. -/
structure Valves where
  VENICE_API_BASE_URL : String := "https://api.venice.ai/api/v1"
  VENICE_API_KEY : String := ""
  IMAGE_WIDTH : Int := 720
  IMAGE_HEIGHT : Int := 1080
  HIDE_WATERMARK : Bool := true
  RETURN_BINARY : Bool := false
  SEED : Option Int := some 123
  MODEL_ID : String := "fluently-xl"
  CFG_SCALE : Int := 7
  STEPS : Int := 80
  STYLE_PRESET : String := "Photographic"
  NEGATIVE_PROMPT : String := ""
  TIMEOUT : Int := 10
deriving DecidableEq, Repr

/-- The JSON request body assembled at source lines 89-104. -/
structure Payload where
  model : String
  prompt : String
  width : OVal
  height : OVal
  steps : OVal
  hide_watermark : Bool
  return_binary : Bool
  cfg_scale : OVal
  seed : OVal
  negative_prompt : OVal
  style_preset : String
deriving DecidableEq, Repr

/-- The payload construction of source lines 89-104: `overrides.get(k, default)`
per field, except that `style_preset` reads the valve directly and `seed`
falls back to the freshly drawn random integer. -/
def buildPayload (v : Valves) (prompt : String) (ov : Dict) (randSeed : Int) : Payload where
  model := v.MODEL_ID
  prompt := prompt
  width := (dictGet ov "width").getD (OVal.int v.IMAGE_WIDTH)
  height := (dictGet ov "height").getD (OVal.int v.IMAGE_HEIGHT)
  steps := (dictGet ov "steps").getD (OVal.int v.STEPS)
  hide_watermark := v.HIDE_WATERMARK
  return_binary := v.RETURN_BINARY
  cfg_scale := (dictGet ov "cfg_scale").getD (OVal.int v.CFG_SCALE)
  seed := (dictGet ov "seed").getD (OVal.int randSeed)
  negative_prompt := (dictGet ov "negative_prompt").getD (OVal.str v.NEGATIVE_PROMPT)
  style_preset := v.STYLE_PRESET

/-- A notification sent through the event emitter (source lines 74-79,
123-128, 130-135, 139-144). -/
inductive Event where
  | status (description : String) (done : Bool)
  | message (content : String) (role : String)
deriving DecidableEq, Repr

/-- The chat body, reduced to the part the action reads: the `messages`
list, each message reduced to its optional `content` string. -/
inductive BodyMsgs where
  | absent
  | list (msgs : List (Option String))
deriving DecidableEq, Repr

/-- Source line 83, `body.get("messages", [{}])[-1].get("content", "")`:
a missing `messages` key falls back to `[{}]`, whose last element has no
content, giving `""`; an empty `messages` list makes `[-1]` raise
`IndexError`; otherwise the last message's content, defaulting to `""`. -/
def getPrompt : BodyMsgs → Except String String
  | .absent => .ok ""
  | .list msgs =>
      match msgs.getLast? with
      | none => .error "list index out of range"
      | some c => .ok (c.getD "")

/-- Environment model of the HTTP layer (source lines 110-114): either the
parsed JSON body of a successful response, reduced to its optional `images`
field, or the textual description of the exception raised by the request,
by `raise_for_status`, or by JSON decoding. -/
inductive HttpOutcome where
  | ok (images : Option (List String))
  | exn (msg : String)
deriving DecidableEq, Repr

/-- What one invocation of the action produced: the emitted events in
order, and the request payload if the HTTP call was reached. -/
structure ActionResult where
  events : List Event
  request : Option Payload
deriving DecidableEq, Repr

/-- `Action._process_base64_image` (source lines 198-215).  Its body is pure
string formatting, which cannot raise, so the `except` branch of the source
is unreachable and does not appear in the model. -/
def _process_base64_image (image_data : String) : String :=
  "![image](" ++ ("data:image/png;base64," ++ image_data) ++ ")"

/-- Source lines 118-121: entries starting with `"http"` are wrapped as a
plain markdown link, everything else as an inline base64 PNG. -/
def renderImage (image_data : String) : String :=
  if "http".data.isPrefixOf image_data.data then "![image](" ++ image_data ++ ")"
  else _process_base64_image image_data

/-- `Action.action` (source lines 49-144).  The event emitter is modelled
by the returned event list, and its presence by `emitterPresent`; `body` is
the chat body; `outcome` is the environment's HTTP behaviour; `randSeed`
models the value drawn by `random.randint(0, 999999)` at line 98. -/
def action (valves : Valves) (emitterPresent : Bool) (body : BodyMsgs)
    (outcome : HttpOutcome) (randSeed : Int) : ActionResult :=
  if emitterPresent = true ∧ valves.VENICE_API_KEY ≠ "" then
    match getPrompt body with
    | .error msg =>
        ⟨[Event.status "Generating image..." false,
          Event.status ("Error: " ++ msg) true], none⟩
    | .ok rawPrompt =>
        let pr := parse_prompt_overrides rawPrompt
        let payload := buildPayload valves pr.1 pr.2 randSeed
        match outcome with
        | .exn msg =>
            ⟨[Event.status "Generating image..." false,
              Event.status ("Error: " ++ msg) true], some payload⟩
        | .ok images? =>
            let msgs :=
              match images? with
              | some l =>
                  if l.isEmpty then []
                  else l.map (fun i => Event.message (renderImage i) "assistant")
              | none => []
            ⟨Event.status "Generating image..." false ::
              (msgs ++ [Event.status "Image generated!" true]), some payload⟩
  else ⟨[], none⟩

/-- An event is an error status when it is a status notification whose
done flag is set and whose description carries the `"Error: "` text. -/
def isErrorStatus : Event → Bool
  | .status d dn => dn && "Error: ".data.isPrefixOf d.data
  | _ => false

/-- An event is a message notification. -/
def isMessage : Event → Bool
  | .message _ _ => true
  | _ => false

/-- Follows the words of the specification: an HTTP(S) URL string is one
that begins with the scheme `http://` or `https://`.  Compared against the
classification actually performed by `renderImage`. -/
def isHttpUrl (s : String) : Bool :=
  "http://".data.isPrefixOf s.data || "https://".data.isPrefixOf s.data

/-- The contribution of one regex match to the overrides dictionary: the
inserted value if the match leads to an insertion under key `k`, `none` if
it is ignored or its numeric conversion fails. -/
def contribution (m : String × String) (k : String) : Option OVal :=
  if lowerStr m.1 = k ∧ recognized_keys.contains k = true then
    if numeric_keys.contains k = true then Option.map OVal.int (pyInt m.2)
    else some (OVal.str m.2)
  else none

/-- The value of the last match in `ms` that contributes an entry under key
`k`, if any. -/
def lastContrib (k : String) : List (String × String) → Option OVal
  | [] => none
  | m :: ms =>
      match lastContrib k ms with
      | some v => some v
      | none => contribution m k

/-- The effect of one regex match on the working prompt alone: recognized
keys remove the reconstructed token and strip, others leave it unchanged. -/
def cleanStep (c : List Char) (m : String × String) : List Char :=
  if recognized_keys.contains (lowerStr m.1) then
    stripList (replaceList c (tokenOf (lowerStr m.1) m.2))
  else c

/-! ### Helper lemmas -/

theorem isPrefixOf_self (l : List Char) : l.isPrefixOf l = true := by
  induction l with
  | nil => rfl
  | cons a t ih => simp [List.isPrefixOf, ih]

theorem isPrefixOf_append_self (l t : List Char) : l.isPrefixOf (l ++ t) = true := by
  induction l with
  | nil => cases t <;> rfl
  | cons a s ih => simp [List.isPrefixOf, ih]

theorem containsSub_append_self (a b : List Char) : containsSub b (a ++ b) = true := by
  induction a with
  | nil =>
      cases b with
      | nil => rfl
      | cons c cs => simp [containsSub, isPrefixOf_self]
  | cons x a ih => simp [containsSub, ih]

theorem stripList_as_rdrop (l : List Char) :
    stripList l = List.rdropWhile isSpaceChar (List.dropWhile isSpaceChar l) := rfl

theorem dropWhile_rdropWhile_dropWhile (p : Char → Bool) (l : List Char) :
    List.dropWhile p (List.rdropWhile p (List.dropWhile p l)) =
      List.rdropWhile p (List.dropWhile p l) := by
  rcases h : List.rdropWhile p (List.dropWhile p l) with _ | ⟨a, s⟩
  · simp
  · have hpre := List.rdropWhile_prefix p (List.dropWhile p l)
    rw [h] at hpre
    obtain ⟨r, hr⟩ := hpre
    have hdw : List.dropWhile p (a :: (s ++ r)) = a :: (s ++ r) := by
      rw [show a :: (s ++ r) = List.dropWhile p l from hr]
      exact List.dropWhile_idempotent p l
    have ha : ¬ p a = true := by
      have h0 : 0 < (a :: (s ++ r)).length := by simp
      have := (List.dropWhile_eq_self_iff).mp hdw h0
      simpa using this
    exact List.dropWhile_cons_of_neg ha

theorem stripList_idem (l : List Char) : stripList (stripList l) = stripList l := by
  rw [stripList_as_rdrop, stripList_as_rdrop, dropWhile_rdropWhile_dropWhile,
    List.rdropWhile_idempotent]

theorem find?_map_insert (d : Dict) (k : String) (v : OVal)
    (h : d.any (fun p => p.1 == k) = true) :
    (d.map (fun p => if p.1 == k then (k, v) else p)).find? (fun p => p.1 == k) =
      some (k, v) := by
  induction d with
  | nil => simp at h
  | cons p d ih =>
      by_cases hp : (p.1 == k) = true
      · simp only [List.map_cons, if_pos hp]
        exact List.find?_cons_of_pos (p := fun x : String × OVal => x.1 == k) _ (by simp)
      · have hp2 : (p.1 == k) = false := by rwa [Bool.not_eq_true] at hp
        simp only [List.any_cons, hp2, Bool.false_or] at h
        simp only [List.map_cons, if_neg hp]
        rw [List.find?_cons_of_neg (p := fun x : String × OVal => x.1 == k) _
          (by simpa using hp)]
        exact ih h

theorem find?_append_last (d : Dict) (k : String) (v : OVal)
    (h : d.any (fun p => p.1 == k) = false) :
    (d ++ [(k, v)]).find? (fun p => p.1 == k) = some (k, v) := by
  induction d with
  | nil =>
      exact List.find?_cons_of_pos (p := fun x : String × OVal => x.1 == k) _ (by simp)
  | cons p d ih =>
      simp only [List.any_cons, Bool.or_eq_false_iff] at h
      rw [List.cons_append,
        List.find?_cons_of_neg (p := fun x : String × OVal => x.1 == k) _
          (by simp [h.1])]
      exact ih h.2

theorem dictGet_insert_self (d : Dict) (k : String) (v : OVal) :
    dictGet (dictInsert d k v) k = some v := by
  unfold dictInsert dictGet
  by_cases h : d.any (fun p => p.1 == k) = true
  · rw [if_pos h, find?_map_insert d k v h]
    rfl
  · rw [if_neg h, find?_append_last d k v (by rwa [Bool.not_eq_true] at h)]
    rfl

theorem find?_map_ne (d : Dict) (k q : String) (v : OVal) (h : q ≠ k) :
    (d.map (fun p => if p.1 == k then (k, v) else p)).find? (fun p => p.1 == q) =
      d.find? (fun p => p.1 == q) := by
  induction d with
  | nil => rfl
  | cons p d ih =>
      by_cases hp : (p.1 == k) = true
      · have hpk : p.1 = k := by simpa using hp
        have hq : ¬ (p.1 == q) = true := by
          simp [hpk]
          exact fun hh => h hh.symm
        simp only [List.map_cons, if_pos hp]
        rw [List.find?_cons_of_neg (p := fun x : String × OVal => x.1 == q) _ (by
              simp
              exact fun hh => h hh.symm),
          List.find?_cons_of_neg (p := fun x : String × OVal => x.1 == q) _
            (by simpa using hq)]
        exact ih
      · simp only [List.map_cons, if_neg hp]
        by_cases hq : (p.1 == q) = true
        · rw [List.find?_cons_of_pos (p := fun x : String × OVal => x.1 == q) _ hq,
            List.find?_cons_of_pos (p := fun x : String × OVal => x.1 == q) _ hq]
        · rw [List.find?_cons_of_neg (p := fun x : String × OVal => x.1 == q) _
              (by simpa using hq),
            List.find?_cons_of_neg (p := fun x : String × OVal => x.1 == q) _
              (by simpa using hq)]
          exact ih

theorem dictGet_insert_ne (d : Dict) (k q : String) (v : OVal) (h : q ≠ k) :
    dictGet (dictInsert d k v) q = dictGet d q := by
  unfold dictInsert dictGet
  by_cases hany : d.any (fun p => p.1 == k) = true
  · rw [if_pos hany, find?_map_ne d k q v h]
  · rw [if_neg hany, List.find?_append]
    have : List.find? (fun p => p.1 == q) [(k, v)] = none := by
      simp
      exact fun hh => h hh.symm
    rw [this]
    cases d.find? (fun p => p.1 == q) <;> rfl

theorem dictGet_step (st : List Char × Dict) (m : String × String) (k : String) :
    dictGet (step st m).2 k =
      match contribution m k with
      | some v => some v
      | none => dictGet st.2 k := by
  by_cases hk : lowerStr m.1 = k
  · subst hk
    by_cases hr : lowerStr m.1 ∈ recognized_keys
    · by_cases hn : lowerStr m.1 ∈ numeric_keys
      · cases hpi : pyInt m.2 with
        | some n => simp [step, contribution, hr, hn, hpi, dictGet_insert_self]
        | none => simp [step, contribution, hr, hn, hpi]
      · simp [step, contribution, hr, hn, dictGet_insert_self]
    · simp [step, contribution, hr]
  · have hne : k ≠ lowerStr m.1 := fun hh => hk hh.symm
    have hc : contribution m k = none := by
      unfold contribution
      exact if_neg (fun hh => hk hh.1)
    rw [hc]
    by_cases hr : lowerStr m.1 ∈ recognized_keys
    · by_cases hn : lowerStr m.1 ∈ numeric_keys
      · cases hpi : pyInt m.2 with
        | some n =>
            simp [step, hr, hn, hpi,
              dictGet_insert_ne st.2 (lowerStr m.1) k (OVal.int n) hne]
        | none => simp [step, hr, hn, hpi]
      · simp [step, hr, hn,
          dictGet_insert_ne st.2 (lowerStr m.1) k (OVal.str m.2) hne]
    · simp [step, hr]

theorem dictGet_foldl (ms : List (String × String)) :
    ∀ (st : List Char × Dict) (k : String),
      dictGet ((ms.foldl step st).2) k =
        match lastContrib k ms with
        | some v => some v
        | none => dictGet st.2 k := by
  induction ms with
  | nil => intro st k; rfl
  | cons m ms ih =>
      intro st k
      rw [List.foldl_cons, ih, dictGet_step]
      cases hl : lastContrib k ms <;> cases hc : contribution m k <;>
        simp [lastContrib, hl, hc]

theorem step_fst (st : List Char × Dict) (m : String × String) :
    (step st m).1 = cleanStep st.1 m := by
  unfold step cleanStep
  by_cases hr : recognized_keys.contains (lowerStr m.1) = true
  · rw [if_pos hr, if_pos hr]
    by_cases hn : numeric_keys.contains (lowerStr m.1) = true
    · rw [if_pos hn]
      cases pyInt m.2 <;> rfl
    · rw [if_neg hn]
  · rw [if_neg hr, if_neg hr]

theorem foldl_step_fst (ms : List (String × String)) :
    ∀ st : List Char × Dict, ((ms.foldl step st).1) = ms.foldl cleanStep st.1 := by
  induction ms with
  | nil => intro st; rfl
  | cons m ms ih =>
      intro st
      rw [List.foldl_cons, List.foldl_cons, ih, step_fst]

theorem cleanStep_strip_fixed (c : List Char) (m : String × String)
    (h : stripList c = c) : stripList (cleanStep c m) = cleanStep c m := by
  unfold cleanStep
  by_cases hr : recognized_keys.contains (lowerStr m.1) = true
  · rw [if_pos hr]
    exact stripList_idem _
  · rw [if_neg hr]
    exact h

theorem foldl_cleanStep_strip_fixed (ms : List (String × String)) :
    ∀ c, stripList c = c →
      stripList (ms.foldl cleanStep c) = ms.foldl cleanStep c := by
  induction ms with
  | nil => intro c h; exact h
  | cons m ms ih =>
      intro c h
      rw [List.foldl_cons]
      exact ih _ (cleanStep_strip_fixed c m h)

theorem foldl_cleanStep_stripped (ms : List (String × String)) :
    ∀ c, (∃ m ∈ ms, recognized_keys.contains (lowerStr m.1) = true) →
      stripList (ms.foldl cleanStep c) = ms.foldl cleanStep c := by
  induction ms with
  | nil => intro c h; simp at h
  | cons m ms ih =>
      intro c h
      rw [List.foldl_cons]
      by_cases hr : recognized_keys.contains (lowerStr m.1) = true
      · apply foldl_cleanStep_strip_fixed
        unfold cleanStep
        rw [if_pos hr]
        exact stripList_idem _
      · obtain ⟨w, hw, hrw⟩ := h
        rw [List.mem_cons] at hw
        rcases hw with rfl | hw
        · exact absurd hrw hr
        · exact ih _ ⟨w, hw, hrw⟩

theorem contribution_int (m : String × String) (k : String)
    (hk : numeric_keys.contains k = true) (v : OVal)
    (h : contribution m k = some v) : ∃ n : Int, v = OVal.int n := by
  unfold contribution at h
  by_cases hc : lowerStr m.1 = k ∧ recognized_keys.contains k = true
  · rw [if_pos hc, if_pos hk] at h
    cases hpi : pyInt m.2 with
    | some n =>
        rw [hpi] at h
        exact ⟨n, by simpa using h.symm⟩
    | none => rw [hpi] at h; simp at h
  · rw [if_neg hc] at h
    simp at h

theorem lastContrib_int (ms : List (String × String)) (k : String)
    (hk : numeric_keys.contains k = true) :
    ∀ v : OVal, lastContrib k ms = some v → ∃ n : Int, v = OVal.int n := by
  induction ms with
  | nil => intro v h; simp [lastContrib] at h
  | cons m ms ih =>
      intro v h
      unfold lastContrib at h
      cases hl : lastContrib k ms with
      | some w =>
          rw [hl] at h
          have hw : w = v := by simpa using h
          exact hw ▸ ih w hl
      | none =>
          rw [hl] at h
          exact contribution_int m k hk v h

theorem lastContrib_none (ms : List (String × String)) (k : String)
    (hk : numeric_keys.contains k = true)
    (h : ∀ m ∈ ms, lowerStr m.1 = k → pyInt m.2 = none) :
    lastContrib k ms = none := by
  induction ms with
  | nil => rfl
  | cons m ms ih =>
      unfold lastContrib
      rw [ih (fun w hw => h w (List.mem_cons_of_mem _ hw))]
      show contribution m k = none
      unfold contribution
      by_cases hc : lowerStr m.1 = k ∧ recognized_keys.contains k = true
      · rw [if_pos hc, if_pos hk, h m (List.mem_cons_self _ _) hc.1]
        rfl
      · exact if_neg hc

theorem parse_snd_eq (prompt : String) (k : String) :
    dictGet (parse_prompt_overrides prompt).2 k =
      lastContrib k (findall prompt.data) := by
  show dictGet ((findall prompt.data).foldl step (prompt.data, ([] : Dict))).2 k = _
  rw [dictGet_foldl]
  cases lastContrib k (findall prompt.data) <;> rfl

theorem parse_fst_eq (prompt : String) :
    (parse_prompt_overrides prompt).1.data =
      (findall prompt.data).foldl cleanStep prompt.data := by
  show (String.mk ((findall prompt.data).foldl step (prompt.data, ([] : Dict))).1).data = _
  rw [foldl_step_fst]

/-! ### Claim theorems -/

/-- C2, counterexample: on the input `"a cat, width: 512, height: 768"` the
claimed override mapping `{width: 512, height: 768}` does not arise; the
value group of the regex greedily consumes the rest of the line, the single
match fails integer conversion, and the returned override mapping is empty,
with neither a `width` nor a `height` entry. -/
theorem parse_overrides_greedy_cex :
    dictGet (parse_prompt_overrides "a cat, width: 512, height: 768").2 "width" = none ∧
    dictGet (parse_prompt_overrides "a cat, width: 512, height: 768").2 "height" = none ∧
    (parse_prompt_overrides "a cat, width: 512, height: 768").2 = [] := by decide

/-- C2, amended: for the input `"a cat, width: 512, height: 768"` the regex
produces the single match `("width", "512, height: 768")`, whose value fails
integer conversion, so the parser returns the cleaned prompt `"a cat,"` and
an empty override mapping; the literal substring `"width: 512"` is absent
from the returned cleaned prompt. -/
theorem parse_example_amended :
    findall "a cat, width: 512, height: 768".data = [("width", "512, height: 768")] ∧
    parse_prompt_overrides "a cat, width: 512, height: 768" = ("a cat,", []) ∧
    containsSub "width: 512".data "a cat,".data = false := by decide

/-- C5 (confirmed): whenever a numeric key is matched and its value fails
integer conversion, that match contributes no entry to the override
mapping, and every value stored under a numeric key in the result is an
integer; in particular if every match for a numeric key fails conversion,
the key is absent from the result. -/
theorem numeric_overrides_are_integers (prompt : String) (k : String)
    (hk : numeric_keys.contains k = true) :
    (∀ v : OVal, dictGet (parse_prompt_overrides prompt).2 k = some v →
      ∃ n : Int, v = OVal.int n) ∧
    ((∀ m ∈ findall prompt.data, lowerStr m.1 = k → pyInt m.2 = none) →
      dictGet (parse_prompt_overrides prompt).2 k = none) := by
  constructor
  · intro v hv
    rw [parse_snd_eq] at hv
    exact lastContrib_int _ k hk v hv
  · intro hfail
    rw [parse_snd_eq]
    exact lastContrib_none _ k hk hfail

/-- Witness for C5: on the input `"seed: abc"` the value `"abc"` fails
integer conversion, so the `seed` key is absent from the result. -/
theorem numeric_overrides_are_integers_witness :
    numeric_keys.contains "seed" = true ∧
    dictGet (parse_prompt_overrides "seed: abc").2 "seed" = none :=
  ⟨by decide,
    (numeric_overrides_are_integers "seed: abc" "seed" (by decide)).2 (by decide)⟩

/-- C7, counterexample: on the input `"WIDTH: 512"` the key matches in
upper case and is recognized after lower-casing, but the removal uses the
reconstructed lower-case token `"width: 512"`, which does not occur in the
prompt, so the exact matched substring `"WIDTH: 512"` is NOT removed: the
cleaned prompt still contains it (it is the whole cleaned prompt). -/
theorem matched_token_not_removed_cex :
    findall "WIDTH: 512".data = [("WIDTH", "512")] ∧
    recognized_keys.contains (lowerStr "WIDTH") = true ∧
    (parse_prompt_overrides "WIDTH: 512").1 = "WIDTH: 512" ∧
    containsSub "WIDTH: 512".data (parse_prompt_overrides "WIDTH: 512").1.data =
      true := by decide

/-- C7, amended: for every input, the cleaned prompt is obtained by
folding over the matches the operation that, for each recognized key,
removes every literal occurrence of the reconstructed token
`"<lower-cased key>: <value>"` (not the exact matched substring, which may
differ in case or spacing and then survives) and strips surrounding
whitespace; consequently, as soon as one recognized match exists, the final
cleaned prompt is trimmed of leading and trailing whitespace. -/
theorem cleaned_prompt_amended (prompt : String) :
    (parse_prompt_overrides prompt).1.data =
      (findall prompt.data).foldl cleanStep prompt.data ∧
    ((∃ m ∈ findall prompt.data, recognized_keys.contains (lowerStr m.1) = true) →
      stripList (parse_prompt_overrides prompt).1.data =
        (parse_prompt_overrides prompt).1.data) := by
  constructor
  · exact parse_fst_eq prompt
  · intro h
    rw [parse_fst_eq]
    exact foldl_cleanStep_stripped _ _ h

/-- Witness for C7: the input `"width: 512"` has a recognized match, and
the resulting cleaned prompt is strip-fixed. -/
theorem cleaned_prompt_amended_witness :
    (∃ m ∈ findall "width: 512".data,
      recognized_keys.contains (lowerStr m.1) = true) ∧
    stripList (parse_prompt_overrides "width: 512").1.data =
      (parse_prompt_overrides "width: 512").1.data :=
  ⟨by decide, (cleaned_prompt_amended "width: 512").2 (by decide)⟩

/-- C8, counterexample: in `"steps: 1\nsteps: abc"` the recognized key
`steps` is matched twice, but the value of the last occurrence fails
integer conversion and contributes nothing, so the mapping retains the
EARLIER value `1` rather than the value of the last occurrence. -/
theorem duplicate_key_last_invalid_cex :
    findall "steps: 1\nsteps: abc".data = [("steps", "1"), ("steps", "abc")] ∧
    pyInt "abc" = none ∧
    dictGet (parse_prompt_overrides "steps: 1\nsteps: abc").2 "steps" =
      some (OVal.int 1) ∧
    some (OVal.int 1) ≠ some (OVal.str "abc") := by decide

/-- C8, amended: for every input and key, the override mapping holds the
value contributed by the LAST match that actually contributes an entry
(recognized key and, for numeric keys, successful integer conversion);
in particular for `"steps: 10\nsteps: 20"` the mapping holds `steps = 20`. -/
theorem duplicate_key_last_contribution :
    (∀ (prompt k : String),
      dictGet (parse_prompt_overrides prompt).2 k =
        lastContrib k (findall prompt.data)) ∧
    dictGet (parse_prompt_overrides "steps: 10\nsteps: 20").2 "steps" =
      some (OVal.int 20) :=
  ⟨parse_snd_eq, by decide⟩

/-- C10 (confirmed): `_process_base64_image` always returns exactly the
markdown data-URL wrapper around its input and never produces the
`"Error processing image"` form; its try-block is pure string formatting,
so the error branch is unreachable. -/
theorem process_base64_total (s : String) :
    _process_base64_image s = "![image](data:image/png;base64," ++ s ++ ")" ∧
    ∀ e : String, _process_base64_image s ≠ "Error processing image: " ++ e := by
  constructor
  · rfl
  · intro e h
    have h1 : (_process_base64_image s).data.head? = some '!' := rfl
    rw [h] at h1
    have h2 : ("Error processing image: " ++ e).data.head? = some 'E' := rfl
    exact absurd (Option.some.inj (h1.symm.trans h2)) (by decide)

/-- Witness for C10 at a concrete input. -/
theorem process_base64_total_witness :
    _process_base64_image "abc" = "![image](data:image/png;base64,abc)" :=
  (process_base64_total "abc").1.trans (by decide)

/-- C4 (confirmed): when the event emitter is absent or the configured API
key is the empty string, the action returns immediately as a no-op: no
event of any kind is emitted and no HTTP request is issued. -/
theorem action_noop_without_emitter_or_key (v : Valves) (e : Bool) (b : BodyMsgs)
    (o : HttpOutcome) (r : Int) (h : e = false ∨ v.VENICE_API_KEY = "") :
    action v e b o r = ⟨[], none⟩ := by
  have hcond : ¬ (e = true ∧ v.VENICE_API_KEY ≠ "") := by
    rintro ⟨he, hk⟩
    rcases h with h | h
    · rw [h] at he
      exact Bool.noConfusion he
    · exact hk h
  unfold action
  rw [if_neg hcond]

/-- Witness for C4: with the default empty API key and no emitter, nothing
happens. -/
theorem action_noop_without_emitter_or_key_witness :
    action ({} : Valves) false .absent (.ok none) 0 = ⟨[], none⟩ :=
  action_noop_without_emitter_or_key ({} : Valves) false .absent (.ok none) 0
    (Or.inl rfl)

/-- C3 (confirmed): whenever an exception is raised after the initial
status (a malformed body in step 2, or an HTTP timeout, connection error,
non-success status or JSON failure in steps 5-7), the action emits exactly
one error-status notification; it carries the error text, its done flag is
true, it is the final emission, and no message notification is emitted. -/
theorem action_exception_single_error (v : Valves) (e : Bool) (b : BodyMsgs)
    (o : HttpOutcome) (r : Int) (msg : String)
    (he : e = true) (hk : v.VENICE_API_KEY ≠ "")
    (hexn : getPrompt b = .error msg ∨
      ((∃ s, getPrompt b = Except.ok s) ∧ o = .exn msg)) :
    (action v e b o r).events =
      [Event.status "Generating image..." false,
       Event.status ("Error: " ++ msg) true] ∧
    ((action v e b o r).events.countP isErrorStatus) = 1 ∧
    (action v e b o r).events.getLast? =
      some (Event.status ("Error: " ++ msg) true) ∧
    containsSub msg.data ("Error: " ++ msg).data = true ∧
    ((action v e b o r).events.countP isMessage) = 0 := by
  subst he
  have hev : (action v true b o r).events =
      [Event.status "Generating image..." false,
       Event.status ("Error: " ++ msg) true] := by
    unfold action
    rw [if_pos ⟨rfl, hk⟩]
    rcases hexn with h | ⟨⟨s, hs⟩, ho⟩
    · rw [h]
    · rw [hs, ho]
  have herr : isErrorStatus (Event.status ("Error: " ++ msg) true) = true := by
    show (true && "Error: ".data.isPrefixOf ("Error: " ++ msg).data) = true
    rw [Bool.true_and, String.data_append]
    exact isPrefixOf_append_self _ _
  refine ⟨hev, ?_, ?_, ?_, ?_⟩
  · rw [hev]
    simp [List.countP_cons, List.countP_nil, herr, isErrorStatus]
  · rw [hev]
    rfl
  · rw [String.data_append]
    exact containsSub_append_self _ _
  · rw [hev]
    simp [List.countP_cons, List.countP_nil, isMessage]

/-- Witness for C3: a request timeout produces exactly the generating
status followed by the error status. -/
theorem action_exception_single_error_witness :
    (action ({ VENICE_API_KEY := "k" } : Valves) true (.list [some "hi"])
        (.exn "timeout") 7).events =
      [Event.status "Generating image..." false,
       Event.status ("Error: " ++ "timeout") true] :=
  (action_exception_single_error ({ VENICE_API_KEY := "k" } : Valves) true
    (.list [some "hi"]) (.exn "timeout") 7 "timeout" rfl (by decide)
    (Or.inr ⟨⟨"hi", rfl⟩, rfl⟩)).1

/-- C9, counterexample: a present but empty `messages` list does NOT yield
the empty prompt with normal processing; `[-1]` raises `IndexError`, the
top-level handler emits the error status, and no HTTP request is issued. -/
theorem empty_messages_error_cex :
    action ({ VENICE_API_KEY := "k" } : Valves) true (.list [])
        (.ok (some ["http://x/y.png"])) 3 =
      ⟨[Event.status "Generating image..." false,
        Event.status "Error: list index out of range" true], none⟩ ∧
    (action ({ VENICE_API_KEY := "k" } : Valves) true (.list [])
        (.ok (some ["http://x/y.png"])) 3).request = none := by decide

/-- C9, amended: an absent `messages` key, or a last message without text
content, yields the empty string as the prompt and processing continues
(the HTTP call is reached); a present but empty `messages` list instead
raises `IndexError`, which the top-level handler reports. -/
theorem prompt_default_amended (v : Valves) (o : HttpOutcome) (r : Int)
    (hk : v.VENICE_API_KEY ≠ "") :
    (getPrompt .absent = Except.ok "" ∧
      (action v true .absent o r).request.isSome = true) ∧
    (∀ msgs : List (Option String), msgs.getLast? = some none →
      getPrompt (.list msgs) = Except.ok "" ∧
      (action v true (.list msgs) o r).request.isSome = true) ∧
    getPrompt (.list []) = Except.error "list index out of range" := by
  refine ⟨⟨rfl, ?_⟩, ?_, rfl⟩
  · unfold action
    rw [if_pos ⟨rfl, hk⟩]
    cases o <;> rfl
  · intro msgs hlast
    have hgp : getPrompt (.list msgs) = Except.ok "" := by
      show (match msgs.getLast? with
        | none => (Except.error "list index out of range" : Except String String)
        | some c => Except.ok (c.getD "")) = Except.ok ""
      rw [hlast]
      rfl
    refine ⟨hgp, ?_⟩
    unfold action
    rw [if_pos ⟨rfl, hk⟩, hgp]
    cases o <;> rfl

/-- Witness for C9: with an absent `messages` key the prompt defaults and
the request is issued. -/
theorem prompt_default_amended_witness :
    getPrompt .absent = Except.ok "" ∧
    (action ({ VENICE_API_KEY := "k" } : Valves) true .absent
      (.ok none) 0).request.isSome = true :=
  (prompt_default_amended ({ VENICE_API_KEY := "k" } : Valves) (.ok none) 0
    (by decide)).1

/-- C6, counterexample: the entry `"httpZZZZ"` is a valid base64 string and
not an HTTP(S) URL, yet the code classifies by the four-character prefix
`"http"` and emits the plain link form instead of the data-URL form. -/
theorem url_classification_cex :
    isHttpUrl "httpZZZZ" = false ∧
    (action ({ VENICE_API_KEY := "k" } : Valves) true .absent
        (.ok (some ["httpZZZZ"])) 0).events =
      [Event.status "Generating image..." false,
       Event.message "![image](httpZZZZ)" "assistant",
       Event.status "Image generated!" true] ∧
    ("![image](httpZZZZ)" : String) ≠ "![image](data:image/png;base64,httpZZZZ)" := by
  decide

/-- C6, amended: on a successful response each entry of the `images` list
produces exactly one message notification with assistant role, in order;
the content is `![image](URL)` when the entry STARTS WITH `"http"` and the
base64 data-URL form otherwise; an absent or empty list produces no message
notification, and the final emission is the done status. -/
theorem action_success_messages_amended (v : Valves) (e : Bool) (b : BodyMsgs)
    (imgs : Option (List String)) (r : Int) (s : String)
    (he : e = true) (hk : v.VENICE_API_KEY ≠ "") (hp : getPrompt b = Except.ok s) :
    (action v e b (.ok imgs) r).events =
      Event.status "Generating image..." false ::
        ((imgs.getD []).map (fun i => Event.message (renderImage i) "assistant") ++
          [Event.status "Image generated!" true]) ∧
    ∀ i : String, renderImage i =
      if "http".data.isPrefixOf i.data then "![image](" ++ i ++ ")"
      else "![image](data:image/png;base64," ++ i ++ ")" := by
  subst he
  constructor
  · unfold action
    rw [if_pos ⟨rfl, hk⟩, hp]
    cases imgs with
    | none => rfl
    | some l =>
        cases l with
        | nil => rfl
        | cons x xs => rfl
  · intro i
    rfl

/-- Witness for C6: the single-URL response emits exactly one message with
the markdown link, followed by the done status. -/
theorem action_success_messages_amended_witness :
    (action ({ VENICE_API_KEY := "k" } : Valves) true (.list [some "a cat"])
        (.ok (some ["http://x/y.png"])) 5).events =
      [Event.status "Generating image..." false,
       Event.message "![image](http://x/y.png)" "assistant",
       Event.status "Image generated!" true] := by
  rw [(action_success_messages_amended ({ VENICE_API_KEY := "k" } : Valves) true
      (.list [some "a cat"]) (some ["http://x/y.png"]) 5 "a cat" rfl (by decide)
      rfl).1]
  decide

/-- C1, counterexample: with the default configuration (fixed seed 123 and
style preset "Photographic") and the prompt `"style_preset: Anime"`, the
parser collects the style_preset override, yet the request payload carries
the configured preset, not the override; and although neither a seed
override nor an unset configured seed is present, the payload seed is the
freshly drawn random value 42 rather than the configured 123. -/
theorem payload_override_ignored_cex :
    dictGet (parse_prompt_overrides "style_preset: Anime").2 "style_preset" =
      some (OVal.str "Anime") ∧
    dictGet (parse_prompt_overrides "style_preset: Anime").2 "seed" = none ∧
    ({ VENICE_API_KEY := "k" } : Valves).SEED = some 123 ∧
    ((action ({ VENICE_API_KEY := "k" } : Valves) true
        (.list [some "style_preset: Anime"]) (.ok none) 42).request.map
        Payload.style_preset) = some "Photographic" ∧
    ((action ({ VENICE_API_KEY := "k" } : Valves) true
        (.list [some "style_preset: Anime"]) (.ok none) 42).request.map
        Payload.seed) = some (OVal.int 42) ∧
    ("Photographic" : String) ≠ "Anime" ∧ OVal.int 42 ≠ OVal.int 123 := by decide

/-- C1, amended: the request payload merges override-else-default for the
fields width, height, steps, cfg_scale and negative_prompt; the
style_preset field always carries the configured preset (a parsed
style_preset override is ignored); and the seed field is the parsed
override when present and otherwise the freshly drawn random integer in
[0, 999999], regardless of the configured seed value. -/
theorem payload_merge_amended (v : Valves) (e : Bool) (b : BodyMsgs)
    (o : HttpOutcome) (r : Int) (s : String)
    (he : e = true) (hk : v.VENICE_API_KEY ≠ "") (hp : getPrompt b = Except.ok s)
    (hr : 0 ≤ r ∧ r ≤ 999999) :
    ∃ p : Payload, (action v e b o r).request = some p ∧
      p.width =
        (dictGet (parse_prompt_overrides s).2 "width").getD (OVal.int v.IMAGE_WIDTH) ∧
      p.height =
        (dictGet (parse_prompt_overrides s).2 "height").getD (OVal.int v.IMAGE_HEIGHT) ∧
      p.steps =
        (dictGet (parse_prompt_overrides s).2 "steps").getD (OVal.int v.STEPS) ∧
      p.cfg_scale =
        (dictGet (parse_prompt_overrides s).2 "cfg_scale").getD (OVal.int v.CFG_SCALE) ∧
      p.negative_prompt =
        (dictGet (parse_prompt_overrides s).2 "negative_prompt").getD
          (OVal.str v.NEGATIVE_PROMPT) ∧
      p.style_preset = v.STYLE_PRESET ∧
      p.seed = (dictGet (parse_prompt_overrides s).2 "seed").getD (OVal.int r) ∧
      (dictGet (parse_prompt_overrides s).2 "seed" = none →
        p.seed = OVal.int r ∧ 0 ≤ r ∧ r ≤ 999999) := by
  subst he
  refine ⟨buildPayload v (parse_prompt_overrides s).1 (parse_prompt_overrides s).2 r,
    ?_, rfl, rfl, rfl, rfl, rfl, rfl, rfl, ?_⟩
  · unfold action
    rw [if_pos ⟨rfl, hk⟩, hp]
    cases o <;> rfl
  · intro hnone
    refine ⟨?_, hr.1, hr.2⟩
    show (dictGet (parse_prompt_overrides s).2 "seed").getD (OVal.int r) = OVal.int r
    rw [hnone]
    rfl

/-- Witness for C1: with an empty prompt and no overrides, the payload
carries the configured preset and the random seed. -/
theorem payload_merge_amended_witness :
    ∃ p : Payload,
      (action ({ VENICE_API_KEY := "k" } : Valves) true .absent
        (.ok none) 5).request = some p ∧
      p.style_preset = "Photographic" ∧ p.seed = OVal.int 5 := by
  obtain ⟨p, hreq, hw, hh, hs, hc, hn, hsp, hsd, hrand⟩ :=
    payload_merge_amended ({ VENICE_API_KEY := "k" } : Valves) true .absent
      (.ok none) 5 "" rfl (by decide) rfl (by decide)
  refine ⟨p, hreq, hsp.trans rfl, ?_⟩
  rw [hsd]
  decide
